import Mathlib

/-!
Shallow embedding of `Kinematics.py`, a rigid-body attitude library built on
unit quaternions and Z-Y-X (Tait-Bryan) Euler angles, together with proofs of
the specified properties.  Python floats are modelled as exact reals; a Python
`ZeroDivisionError` that escapes a method is modelled as `Except.error`
carrying the object state at the moment the exception is raised.
-/

open Real

namespace Kin

/-- Embeds the `Quaternion` class: four real components of `w + xi + yj + zk`.
Mathlib also has a `Quaternion`, hence the `Kin` namespace. -/
structure Quaternion where
  w : ℝ
  x : ℝ
  y : ℝ
  z : ℝ

/-- Embeds `Quaternion.magnitude`: `math.sqrt(w**2 + x**2 + y**2 + z**2)`. -/
noncomputable def Quaternion.magnitude (q : Quaternion) : ℝ :=
  Real.sqrt (q.w ^ 2 + q.x ^ 2 + q.y ^ 2 + q.z ^ 2)

/-- Sum of squared components; `magnitude` is its square root.  Helper for
stating proofs, not present as a separate method in the source. -/
def Quaternion.normSq (q : Quaternion) : ℝ :=
  q.w ^ 2 + q.x ^ 2 + q.y ^ 2 + q.z ^ 2

open scoped Classical in
/-- Embeds `Quaternion.normalise`: divides every component by the magnitude
`m` computed once up front.  In Python, when `m == 0` the first division
`self.w /= m` raises `ZeroDivisionError` before any component is assigned;
the method catches it and returns with all components unchanged, which the
`if` branch models exactly. -/
noncomputable def Quaternion.normalise (q : Quaternion) : Quaternion :=
  if q.magnitude = 0 then q
  else ⟨q.w / q.magnitude, q.x / q.magnitude, q.y / q.magnitude, q.z / q.magnitude⟩

/-- Embeds `Quaternion.__init__(w,x,y,z)`: stores the components and then
calls `normalise()`.  (The `isinstance` loop in the source rebinds only the
loop variable and has no effect; ints and floats are both modelled by `ℝ`.) -/
noncomputable def mkQuaternion (w x y z : ℝ) : Quaternion :=
  Quaternion.normalise ⟨w, x, y, z⟩

/-- Embeds `Quaternion.conjugate`: `Quaternion(w, -x, -y, -z)` — note the
result goes through the normalising constructor. -/
noncomputable def Quaternion.conjugate (q : Quaternion) : Quaternion :=
  mkQuaternion q.w (-q.x) (-q.y) (-q.z)

/-- Embeds `Quaternion.productOf`: the Hamilton product components are passed
to the normalising constructor. -/
noncomputable def Quaternion.productOf (q1 q : Quaternion) : Quaternion :=
  mkQuaternion
    (q1.w * q.w - q1.x * q.x - q1.y * q.y - q1.z * q.z)
    (q1.w * q.x + q1.x * q.w + q1.y * q.z - q1.z * q.y)
    (q1.w * q.y - q1.x * q.z + q1.y * q.w + q1.z * q.x)
    (q1.w * q.z + q1.x * q.y - q1.y * q.x + q1.z * q.w)

/-- Embeds `Quaternion.difference(q)`: `q.productOf(self.conjugate())`. -/
noncomputable def Quaternion.difference (self q : Quaternion) : Quaternion :=
  q.productOf self.conjugate

/-- Embeds the `EulerAngles` class: yaw, pitch, roll in degrees. -/
structure EulerAngles where
  yaw : ℝ
  pitch : ℝ
  roll : ℝ

/-- Embeds `EulerAngles.YPRvector`: the tuple `(yaw, pitch, roll)`. -/
def EulerAngles.YPRvector (e : EulerAngles) : ℝ × ℝ × ℝ :=
  (e.yaw, e.pitch, e.roll)

/-- Models `math.atan2(y, x)` of the C library, with range `(-π, π]` and
`atan2 0 0 = 0`, via the argument of the complex number `x + y·i`. -/
noncomputable def atan2 (y x : ℝ) : ℝ :=
  Complex.arg (x + y * Complex.I)

open scoped Classical in
/-- Embeds the module-level guard `_wrap_asin(v)`: clamp to `±π/2` outside
`[-1, 1]`, otherwise `math.asin(v)`. -/
noncomputable def wrap_asin (v : ℝ) : ℝ :=
  if v ≥ 1 then π / 2
  else if v ≤ -1 then -(π / 2)
  else Real.arcsin v

/-- Embeds `Quaternion.toEuler`: yaw/pitch/roll in degrees from the standard
quaternion-to-Tait-Bryan formulas, pitch going through `_wrap_asin`. -/
noncomputable def Quaternion.toEuler (q : Quaternion) : EulerAngles :=
  ⟨atan2 (2.0 * (q.w * q.z + q.x * q.y)) (1.0 - 2.0 * (q.y ^ 2 + q.z ^ 2)) / π * 180.0,
   wrap_asin (2.0 * (q.w * q.y - q.z * q.x)) / π * 180.0,
   atan2 (2.0 * (q.w * q.x + q.y * q.z)) (1.0 - 2.0 * (q.x ^ 2 + q.y ^ 2)) / π * 180.0⟩

/-- Embeds `EulerAngles.toQuaternion`: half-angle products fed to the
normalising `Quaternion` constructor. -/
noncomputable def EulerAngles.toQuaternion (e : EulerAngles) : Quaternion :=
  let cosRoll := Real.cos (e.roll * π / 180.0 * 0.5)
  let sinRoll := Real.sin (e.roll * π / 180.0 * 0.5)
  let cosPitch := Real.cos (e.pitch * π / 180.0 * 0.5)
  let sinPitch := Real.sin (e.pitch * π / 180.0 * 0.5)
  let cosYaw := Real.cos (e.yaw * π / 180.0 * 0.5)
  let sinYaw := Real.sin (e.yaw * π / 180.0 * 0.5)
  mkQuaternion
    (cosRoll * cosPitch * cosYaw + sinRoll * sinPitch * sinYaw)
    (sinRoll * cosPitch * cosYaw - cosRoll * sinPitch * sinYaw)
    (cosRoll * sinPitch * cosYaw + sinRoll * cosPitch * sinYaw)
    (cosRoll * cosPitch * sinYaw - sinRoll * sinPitch * cosYaw)

/-- Embeds the `Kinematics` class.  In the source it inherits from
`Quaternion`, reusing the `w,x,y,z` fields as the current attitude; the
remaining fields are the target, the last-update timestamp, the cached
angular velocities `(yaw, pitch, roll)` in deg/sec, and the cached error
quaternion. -/
structure Kinematics where
  w : ℝ
  x : ℝ
  y : ℝ
  z : ℝ
  target : Quaternion
  time : ℝ
  degSecYPR : ℝ × ℝ × ℝ
  error : Quaternion

/-- The current attitude of the tracker read as a `Quaternion` value (the
source accesses the inherited `w,x,y,z` fields directly). -/
def Kinematics.quat (s : Kinematics) : Quaternion :=
  ⟨s.w, s.x, s.y, s.z⟩

/-- Embeds `Kinematics.__init__(w,x,y,z)`: normalising quaternion
construction, `target = self` (so target equals the current attitude),
timestamp from the clock (here an explicit argument `t0` in place of
`time.time()`), zero angular velocity, and `error = self.difference(target)`. -/
noncomputable def Kinematics.init (w x y z t0 : ℝ) : Kinematics :=
  let q := mkQuaternion w x y z
  { w := q.w, x := q.x, y := q.y, z := q.z,
    target := q, time := t0, degSecYPR := (0.0, 0.0, 0.0),
    error := q.difference q }

open scoped Classical in
/-- Embeds `Kinematics.update(attitude, target)` with the clock read
`time.time()` passed in as `now`.  Steps, in source order: compute
`dt = now - self.time` and advance the timestamp; snapshot the previous
attitude through the normalising constructor; adopt the new attitude
components and the new target; convert the incremental rotation to Euler
angles; divide each axis by `dt` to get deg/sec; recompute the error
quaternion.  When `dt = 0` the per-axis division raises `ZeroDivisionError`
in Python (float division by zero raises, it does not produce inf/NaN);
this is modelled by `Except.error` carrying the state already mutated up to
that point (timestamp, attitude components and target overwritten; cached
velocities and error left stale). -/
noncomputable def Kinematics.update (s : Kinematics) (now : ℝ)
    (attitude tgt : Quaternion) : Except Kinematics Kinematics :=
  let dt := now - s.time
  let prev := mkQuaternion s.w s.x s.y s.z
  let s3 : Kinematics :=
    { s with time := now, w := attitude.w, x := attitude.x,
             y := attitude.y, z := attitude.z, target := tgt }
  let delta := (prev.difference s3.quat).toEuler
  if dt = 0 then Except.error s3
  else
    Except.ok
      { s3 with
        degSecYPR := (delta.yaw / dt, delta.pitch / dt, delta.roll / dt),
        error := s3.quat.difference s3.target }

/-- Embeds `Kinematics.setTarget(q)`: `self.target = q` followed by
`self.update(self, q)` — the object itself is passed as the new attitude, so
update reads back the unchanged current components. -/
noncomputable def Kinematics.setTarget (s : Kinematics) (now : ℝ)
    (q : Quaternion) : Except Kinematics Kinematics :=
  let s1 : Kinematics := { s with target := q }
  s1.update now s1.quat q

/-- Embeds `Kinematics.rotateTarget(q)`:
`self.target = self.target.productOf(q)` followed by
`self.update(self, self.target)`. -/
noncomputable def Kinematics.rotateTarget (s : Kinematics) (now : ℝ)
    (q : Quaternion) : Except Kinematics Kinematics :=
  let s1 : Kinematics := { s with target := s.target.productOf q }
  s1.update now s1.quat s1.target

/-- Embeds `Kinematics.getAngularVelocities`: the cached deg/sec triple. -/
def Kinematics.getAngularVelocities (s : Kinematics) : ℝ × ℝ × ℝ :=
  s.degSecYPR

/-- Embeds `Kinematics.getErrorQuaternion`: the cached error quaternion. -/
def Kinematics.getErrorQuaternion (s : Kinematics) : Quaternion :=
  s.error

/-- Embeds `Kinematics.getErrorEuler`: the cached error as Euler angles. -/
noncomputable def Kinematics.getErrorEuler (s : Kinematics) : EulerAngles :=
  s.error.toEuler

/-- The tracker state after a call that may have raised: the final state on
the normal path, or the state at the moment the exception propagated. -/
def stateOf (e : Except Kinematics Kinematics) : Kinematics :=
  match e with
  | Except.ok s => s
  | Except.error s => s

/-- True when the call returned normally (no exception propagated). -/
def succeeded (e : Except Kinematics Kinematics) : Bool :=
  match e with
  | Except.ok _ => true
  | Except.error _ => false

/-! Basic lemmas about magnitude and the normalising constructor. -/

theorem Quaternion.magnitude_eq_sqrt_normSq (q : Quaternion) :
    q.magnitude = Real.sqrt q.normSq := rfl

theorem Quaternion.normSq_nonneg (q : Quaternion) : 0 ≤ q.normSq := by
  unfold Quaternion.normSq; positivity

theorem Quaternion.magnitude_eq_zero_iff (q : Quaternion) :
    q.magnitude = 0 ↔ q.normSq = 0 := by
  rw [Quaternion.magnitude_eq_sqrt_normSq, Real.sqrt_eq_zero']
  constructor
  · intro h; exact le_antisymm h q.normSq_nonneg
  · intro h; exact h.le

theorem Quaternion.magnitude_eq_one_iff (q : Quaternion) :
    q.magnitude = 1 ↔ q.normSq = 1 := by
  rw [Quaternion.magnitude_eq_sqrt_normSq, Real.sqrt_eq_one]

/-- When the magnitude is nonzero, `normalise` produces a unit quaternion. -/
theorem Quaternion.magnitude_normalise (q : Quaternion) (h : q.normSq ≠ 0) :
    q.normalise.magnitude = 1 := by
  have hm : q.magnitude ≠ 0 := fun hz => h ((q.magnitude_eq_zero_iff).mp hz)
  have hpos : 0 < q.normSq := lt_of_le_of_ne q.normSq_nonneg (Ne.symm h)
  have hmsq : q.magnitude ^ 2 = q.normSq := Real.sq_sqrt q.normSq_nonneg
  rw [Quaternion.normalise, if_neg hm, Quaternion.magnitude_eq_one_iff]
  show (q.w / q.magnitude) ^ 2 + (q.x / q.magnitude) ^ 2 +
      (q.y / q.magnitude) ^ 2 + (q.z / q.magnitude) ^ 2 = 1
  have : (q.w / q.magnitude) ^ 2 + (q.x / q.magnitude) ^ 2 +
      (q.y / q.magnitude) ^ 2 + (q.z / q.magnitude) ^ 2 =
      q.normSq / q.magnitude ^ 2 := by
    unfold Quaternion.normSq; field_simp
  rw [this, hmsq, div_self h]

/-- When the components already have unit square-sum, the normalising
constructor leaves them untouched. -/
theorem mkQuaternion_of_normSq_one {w x y z : ℝ}
    (h : w ^ 2 + x ^ 2 + y ^ 2 + z ^ 2 = 1) :
    mkQuaternion w x y z = ⟨w, x, y, z⟩ := by
  have hm : Quaternion.magnitude ⟨w, x, y, z⟩ = 1 :=
    (Quaternion.magnitude_eq_one_iff _).mpr h
  have hm0 : Quaternion.magnitude ⟨w, x, y, z⟩ ≠ 0 := by rw [hm]; norm_num
  unfold mkQuaternion Quaternion.normalise
  rw [if_neg hm0, hm]
  simp

/-- Normalising the all-zero quadruple leaves it unchanged. -/
theorem mkQuaternion_zero : mkQuaternion 0 0 0 0 = ⟨0, 0, 0, 0⟩ := by
  have hm : Quaternion.magnitude ⟨0, 0, 0, 0⟩ = 0 := by
    rw [Quaternion.magnitude_eq_zero_iff]
    unfold Quaternion.normSq
    norm_num
  unfold mkQuaternion Quaternion.normalise
  rw [if_pos hm]

/-- When the magnitude is nonzero, the constructor yields a unit quaternion. -/
theorem magnitude_mkQuaternion {w x y z : ℝ}
    (h : w ^ 2 + x ^ 2 + y ^ 2 + z ^ 2 ≠ 0) :
    (mkQuaternion w x y z).magnitude = 1 :=
  Quaternion.magnitude_normalise ⟨w, x, y, z⟩ h

/-- Euler's four-square identity, specialised to the Hamilton product
components used by `productOf`. -/
theorem normSq_product_components (q1 q : Quaternion) :
    Quaternion.normSq
      ⟨q1.w * q.w - q1.x * q.x - q1.y * q.y - q1.z * q.z,
       q1.w * q.x + q1.x * q.w + q1.y * q.z - q1.z * q.y,
       q1.w * q.y - q1.x * q.z + q1.y * q.w + q1.z * q.x,
       q1.w * q.z + q1.x * q.y - q1.y * q.x + q1.z * q.w⟩ =
      q1.normSq * q.normSq := by
  unfold Quaternion.normSq
  ring

/-- For a unit quaternion, `conjugate` is componentwise negation of the
vector part (the constructor renormalisation is the identity). -/
theorem Quaternion.conjugate_of_normSq_one {q : Quaternion} (h : q.normSq = 1) :
    q.conjugate = ⟨q.w, -q.x, -q.y, -q.z⟩ := by
  unfold Quaternion.conjugate
  apply mkQuaternion_of_normSq_one
  unfold Quaternion.normSq at h
  linear_combination h

/-- A unit quaternion times its own conjugate is the identity quaternion. -/
theorem Quaternion.difference_self_of_normSq_one {q : Quaternion}
    (h : q.normSq = 1) : q.difference q = ⟨1, 0, 0, 0⟩ := by
  unfold Quaternion.difference
  rw [Quaternion.conjugate_of_normSq_one h]
  unfold Quaternion.productOf
  have hw : q.w * q.w - q.x * -q.x - q.y * -q.y - q.z * -q.z = 1 := by
    unfold Quaternion.normSq at h; linear_combination h
  have hx : q.w * -q.x + q.x * q.w + q.y * -q.z - q.z * -q.y = 0 := by ring
  have hy : q.w * -q.y - q.x * -q.z + q.y * q.w + q.z * -q.x = 0 := by ring
  have hz : q.w * -q.z + q.x * -q.y - q.y * -q.x + q.z * q.w = 0 := by ring
  rw [hw, hx, hy, hz]
  exact mkQuaternion_of_normSq_one (by norm_num)

/-- The all-zero quaternion times its own conjugate is the all-zero
quaternion (every stage hits the zero-magnitude no-op branch). -/
theorem Quaternion.difference_self_zero :
    Quaternion.difference ⟨0, 0, 0, 0⟩ ⟨0, 0, 0, 0⟩ = ⟨0, 0, 0, 0⟩ := by
  unfold Quaternion.difference Quaternion.conjugate
  have h1 : mkQuaternion (0:ℝ) (-0) (-0) (-0) = ⟨0, 0, 0, 0⟩ := by
    rw [show (-(0:ℝ)) = 0 by norm_num]
    exact mkQuaternion_zero
  show Quaternion.productOf ⟨0, 0, 0, 0⟩ (mkQuaternion 0 (-0) (-0) (-0)) = _
  rw [h1]
  unfold Quaternion.productOf
  norm_num
  exact mkQuaternion_zero

/-! Lemmas about the trigonometric helpers. -/

/-- The guard agrees with Mathlib's (already clamped) `arcsin` everywhere. -/
theorem wrap_asin_eq_arcsin (v : ℝ) : wrap_asin v = Real.arcsin v := by
  unfold wrap_asin
  split_ifs with h1 h2
  · exact (Real.arcsin_of_one_le h1).symm
  · exact (Real.arcsin_of_le_neg_one h2).symm
  · rfl

theorem atan2_zero_one : atan2 0 1 = 0 := by
  unfold atan2
  norm_num [Complex.arg_one]

/-- On a positively scaled point of the unit circle, `atan2` recovers the
angle, for angles in the principal range `(-π, π]`. -/
theorem atan2_cos_sin {θ r : ℝ} (hr : 0 < r) (h1 : -π < θ) (h2 : θ ≤ π) :
    atan2 (r * Real.sin θ) (r * Real.cos θ) = θ := by
  unfold atan2
  have hc : ((r * Real.cos θ : ℝ) : ℂ) + ((r * Real.sin θ : ℝ) : ℂ) * Complex.I =
      (r : ℂ) * ((Real.cos θ : ℂ) + (Real.sin θ : ℂ) * Complex.I) := by
    push_cast
    ring
  rw [hc, Complex.arg_real_mul _ hr, Complex.ofReal_cos, Complex.ofReal_sin]
  exact Complex.arg_cos_add_sin_mul_I ⟨h1, h2⟩

/-- The identity quaternion converts to the zero Euler triple. -/
theorem toEuler_id : Quaternion.toEuler ⟨1, 0, 0, 0⟩ = ⟨0, 0, 0⟩ := by
  unfold Quaternion.toEuler
  norm_num [wrap_asin_eq_arcsin, Real.arcsin_zero, atan2_zero_one]

/-- The all-zero quaternion also converts to the zero Euler triple (all the
`atan2`/`asin` arguments vanish identically). -/
theorem toEuler_zero : Quaternion.toEuler ⟨0, 0, 0, 0⟩ = ⟨0, 0, 0⟩ := by
  unfold Quaternion.toEuler
  norm_num [wrap_asin_eq_arcsin, Real.arcsin_zero, atan2_zero_one]

/-! Trigonometric identities for the half-angle quaternion of a Z-Y-X Euler
triple.  Throughout, `a`, `b`, `c` are the yaw, pitch and roll half-angles in
radians. -/

theorem euler_normSq (a b c : ℝ) :
    (Real.cos c * Real.cos b * Real.cos a + Real.sin c * Real.sin b * Real.sin a) ^ 2 +
      (Real.sin c * Real.cos b * Real.cos a - Real.cos c * Real.sin b * Real.sin a) ^ 2 +
      (Real.cos c * Real.sin b * Real.cos a + Real.sin c * Real.cos b * Real.sin a) ^ 2 +
      (Real.cos c * Real.cos b * Real.sin a - Real.sin c * Real.sin b * Real.cos a) ^ 2 = 1 := by
  linear_combination
    ((Real.sin c ^ 2 + Real.cos c ^ 2) * (Real.sin b ^ 2 + Real.cos b ^ 2)) *
      Real.sin_sq_add_cos_sq a +
    (Real.sin c ^ 2 + Real.cos c ^ 2) * Real.sin_sq_add_cos_sq b +
    Real.sin_sq_add_cos_sq c

theorem euler_pitch_arg (a b c : ℝ) :
    2 * ((Real.cos c * Real.cos b * Real.cos a + Real.sin c * Real.sin b * Real.sin a) *
          (Real.cos c * Real.sin b * Real.cos a + Real.sin c * Real.cos b * Real.sin a) -
        (Real.cos c * Real.cos b * Real.sin a - Real.sin c * Real.sin b * Real.cos a) *
          (Real.sin c * Real.cos b * Real.cos a - Real.cos c * Real.sin b * Real.sin a)) =
      Real.sin (2 * b) := by
  rw [Real.sin_two_mul]
  linear_combination
    (2 * Real.cos b * Real.sin b * (Real.sin c ^ 2 + Real.cos c ^ 2)) *
      Real.sin_sq_add_cos_sq a +
    (2 * Real.cos b * Real.sin b) * Real.sin_sq_add_cos_sq c

theorem euler_yaw_num (a b c : ℝ) :
    2 * ((Real.cos c * Real.cos b * Real.cos a + Real.sin c * Real.sin b * Real.sin a) *
          (Real.cos c * Real.cos b * Real.sin a - Real.sin c * Real.sin b * Real.cos a) +
        (Real.sin c * Real.cos b * Real.cos a - Real.cos c * Real.sin b * Real.sin a) *
          (Real.cos c * Real.sin b * Real.cos a + Real.sin c * Real.cos b * Real.sin a)) =
      Real.cos (2 * b) * Real.sin (2 * a) := by
  rw [Real.cos_two_mul', Real.sin_two_mul]
  linear_combination
    (2 * Real.cos a * Real.sin a * (Real.cos b ^ 2 - Real.sin b ^ 2)) *
      Real.sin_sq_add_cos_sq c

theorem euler_yaw_den (a b c : ℝ) :
    1 - 2 * ((Real.cos c * Real.sin b * Real.cos a + Real.sin c * Real.cos b * Real.sin a) ^ 2 +
        (Real.cos c * Real.cos b * Real.sin a - Real.sin c * Real.sin b * Real.cos a) ^ 2) =
      Real.cos (2 * b) * Real.cos (2 * a) := by
  rw [Real.cos_two_mul' b, Real.cos_two_mul' a]
  linear_combination
    (-(Real.sin b ^ 2 + Real.cos b ^ 2)) * Real.sin_sq_add_cos_sq a -
    Real.sin_sq_add_cos_sq b -
    (2 * (Real.sin b ^ 2 * Real.cos a ^ 2 + Real.cos b ^ 2 * Real.sin a ^ 2)) *
      Real.sin_sq_add_cos_sq c

theorem euler_roll_num (a b c : ℝ) :
    2 * ((Real.cos c * Real.cos b * Real.cos a + Real.sin c * Real.sin b * Real.sin a) *
          (Real.sin c * Real.cos b * Real.cos a - Real.cos c * Real.sin b * Real.sin a) +
        (Real.cos c * Real.sin b * Real.cos a + Real.sin c * Real.cos b * Real.sin a) *
          (Real.cos c * Real.cos b * Real.sin a - Real.sin c * Real.sin b * Real.cos a)) =
      Real.cos (2 * b) * Real.sin (2 * c) := by
  rw [Real.cos_two_mul', Real.sin_two_mul]
  linear_combination
    (2 * Real.cos c * Real.sin c * (Real.cos b ^ 2 - Real.sin b ^ 2)) *
      Real.sin_sq_add_cos_sq a

theorem euler_roll_den (a b c : ℝ) :
    1 - 2 * ((Real.sin c * Real.cos b * Real.cos a - Real.cos c * Real.sin b * Real.sin a) ^ 2 +
        (Real.cos c * Real.sin b * Real.cos a + Real.sin c * Real.cos b * Real.sin a) ^ 2) =
      Real.cos (2 * b) * Real.cos (2 * c) := by
  rw [Real.cos_two_mul' b, Real.cos_two_mul' c]
  linear_combination
    (-(2 * (Real.sin c ^ 2 * Real.cos b ^ 2 + Real.cos c ^ 2 * Real.sin b ^ 2))) *
      Real.sin_sq_add_cos_sq a -
    Real.sin_sq_add_cos_sq b -
    (Real.sin b ^ 2 + Real.cos b ^ 2) * Real.sin_sq_add_cos_sq c

/-- General shape lemma: when the three `toEuler` argument pairs of a
quaternion lie on positively scaled unit circles at angles `Y`, `P`, `R`
(in radians, principal ranges), `toEuler` recovers those angles in degrees. -/
theorem toEuler_formula (q : Quaternion) (Y P R : ℝ)
    (hY1 : -π < Y) (hY2 : Y ≤ π)
    (hP1 : -(π / 2) ≤ P) (hP2 : P ≤ π / 2) (hPc : 0 < Real.cos P)
    (hR1 : -π < R) (hR2 : R ≤ π)
    (hyn : 2 * (q.w * q.z + q.x * q.y) = Real.cos P * Real.sin Y)
    (hyd : 1 - 2 * (q.y ^ 2 + q.z ^ 2) = Real.cos P * Real.cos Y)
    (hp : 2 * (q.w * q.y - q.z * q.x) = Real.sin P)
    (hrn : 2 * (q.w * q.x + q.y * q.z) = Real.cos P * Real.sin R)
    (hrd : 1 - 2 * (q.x ^ 2 + q.y ^ 2) = Real.cos P * Real.cos R) :
    q.toEuler = ⟨Y / π * 180, P / π * 180, R / π * 180⟩ := by
  unfold Quaternion.toEuler
  simp only [EulerAngles.mk.injEq]
  refine ⟨?_, ?_, ?_⟩
  · have h1 : (2.0 : ℝ) * (q.w * q.z + q.x * q.y) = Real.cos P * Real.sin Y := by
      linear_combination hyn
    have h2 : (1.0 : ℝ) - 2.0 * (q.y ^ 2 + q.z ^ 2) = Real.cos P * Real.cos Y := by
      linear_combination hyd
    rw [h1, h2, atan2_cos_sin hPc hY1 hY2]
    norm_num
  · have h3 : (2.0 : ℝ) * (q.w * q.y - q.z * q.x) = Real.sin P := by
      linear_combination hp
    rw [h3, wrap_asin_eq_arcsin, Real.arcsin_sin hP1 hP2]
    norm_num
  · have h4 : (2.0 : ℝ) * (q.w * q.x + q.y * q.z) = Real.cos P * Real.sin R := by
      linear_combination hrn
    have h5 : (1.0 : ℝ) - 2.0 * (q.x ^ 2 + q.y ^ 2) = Real.cos P * Real.cos R := by
      linear_combination hrd
    rw [h4, h5, atan2_cos_sin hPc hR1 hR2]
    norm_num

set_option maxHeartbeats 1600000 in
/-- C4 (amended): for pitch strictly inside (−90°, 90°) and yaw and roll in
the principal range (−180°, 180°], the Euler → quaternion → Euler round trip
is exact over exact real arithmetic. -/
theorem C4_euler_round_trip (yaw pitch roll : ℝ)
    (hy1 : -180 < yaw) (hy2 : yaw ≤ 180)
    (hp1 : -90 < pitch) (hp2 : pitch < 90)
    (hr1 : -180 < roll) (hr2 : roll ≤ 180) :
    (EulerAngles.toQuaternion ⟨yaw, pitch, roll⟩).toEuler = ⟨yaw, pitch, roll⟩ := by
  have hq : EulerAngles.toQuaternion ⟨yaw, pitch, roll⟩ =
      ⟨Real.cos (roll * π / 180.0 * 0.5) * Real.cos (pitch * π / 180.0 * 0.5) *
          Real.cos (yaw * π / 180.0 * 0.5) +
        Real.sin (roll * π / 180.0 * 0.5) * Real.sin (pitch * π / 180.0 * 0.5) *
          Real.sin (yaw * π / 180.0 * 0.5),
       Real.sin (roll * π / 180.0 * 0.5) * Real.cos (pitch * π / 180.0 * 0.5) *
          Real.cos (yaw * π / 180.0 * 0.5) -
        Real.cos (roll * π / 180.0 * 0.5) * Real.sin (pitch * π / 180.0 * 0.5) *
          Real.sin (yaw * π / 180.0 * 0.5),
       Real.cos (roll * π / 180.0 * 0.5) * Real.sin (pitch * π / 180.0 * 0.5) *
          Real.cos (yaw * π / 180.0 * 0.5) +
        Real.sin (roll * π / 180.0 * 0.5) * Real.cos (pitch * π / 180.0 * 0.5) *
          Real.sin (yaw * π / 180.0 * 0.5),
       Real.cos (roll * π / 180.0 * 0.5) * Real.cos (pitch * π / 180.0 * 0.5) *
          Real.sin (yaw * π / 180.0 * 0.5) -
        Real.sin (roll * π / 180.0 * 0.5) * Real.sin (pitch * π / 180.0 * 0.5) *
          Real.cos (yaw * π / 180.0 * 0.5)⟩ := by
    simp only [EulerAngles.toQuaternion]
    exact mkQuaternion_of_normSq_one
      (euler_normSq (yaw * π / 180.0 * 0.5) (pitch * π / 180.0 * 0.5)
        (roll * π / 180.0 * 0.5))
  have e2a : 2 * (yaw * π / 180.0 * 0.5) = yaw * π / 180 := by ring
  have e2b : 2 * (pitch * π / 180.0 * 0.5) = pitch * π / 180 := by ring
  have e2c : 2 * (roll * π / 180.0 * 0.5) = roll * π / 180 := by ring
  have hyn := euler_yaw_num (yaw * π / 180.0 * 0.5) (pitch * π / 180.0 * 0.5)
    (roll * π / 180.0 * 0.5)
  rw [e2a, e2b] at hyn
  have hyd := euler_yaw_den (yaw * π / 180.0 * 0.5) (pitch * π / 180.0 * 0.5)
    (roll * π / 180.0 * 0.5)
  rw [e2a, e2b] at hyd
  have hp := euler_pitch_arg (yaw * π / 180.0 * 0.5) (pitch * π / 180.0 * 0.5)
    (roll * π / 180.0 * 0.5)
  rw [e2b] at hp
  have hrn := euler_roll_num (yaw * π / 180.0 * 0.5) (pitch * π / 180.0 * 0.5)
    (roll * π / 180.0 * 0.5)
  rw [e2b, e2c] at hrn
  have hrd := euler_roll_den (yaw * π / 180.0 * 0.5) (pitch * π / 180.0 * 0.5)
    (roll * π / 180.0 * 0.5)
  rw [e2b, e2c] at hrd
  have hY1 : -π < yaw * π / 180 := by
    nlinarith [mul_pos (show (0:ℝ) < yaw + 180 by linarith) Real.pi_pos]
  have hY2 : yaw * π / 180 ≤ π := by
    nlinarith [mul_nonneg (show (0:ℝ) ≤ 180 - yaw by linarith) Real.pi_pos.le]
  have hP1s : -(π / 2) < pitch * π / 180 := by
    nlinarith [mul_pos (show (0:ℝ) < pitch + 90 by linarith) Real.pi_pos]
  have hP2s : pitch * π / 180 < π / 2 := by
    nlinarith [mul_pos (show (0:ℝ) < 90 - pitch by linarith) Real.pi_pos]
  have hPc : 0 < Real.cos (pitch * π / 180) :=
    Real.cos_pos_of_mem_Ioo ⟨hP1s, hP2s⟩
  have hR1 : -π < roll * π / 180 := by
    nlinarith [mul_pos (show (0:ℝ) < roll + 180 by linarith) Real.pi_pos]
  have hR2 : roll * π / 180 ≤ π := by
    nlinarith [mul_nonneg (show (0:ℝ) ≤ 180 - roll by linarith) Real.pi_pos.le]
  rw [hq, toEuler_formula _ (yaw * π / 180) (pitch * π / 180) (roll * π / 180)
    hY1 hY2 hP1s.le hP2s.le hPc hR1 hR2 hyn hyd hp hrn hrd]
  have hπ : (π : ℝ) ≠ 0 := Real.pi_ne_zero
  simp only [EulerAngles.mk.injEq]
  refine ⟨?_, ?_, ?_⟩ <;> (field_simp; ring)

/-- C4 (counterexample): with no restriction on yaw and roll the round trip
fails.  At (yaw, pitch, roll) = (360°, 0°, 360°) the conversion to a
quaternion yields the identity quaternion, which converts back to
(0°, 0°, 0°); the yaw error is 360°, far beyond the claimed 1e-6
tolerance. -/
theorem C4_counterexample :
    1e-6 < |(EulerAngles.toQuaternion ⟨360, 0, 360⟩).toEuler.yaw - 360| := by
  have h1 : (360 : ℝ) * π / 180.0 * 0.5 = π := by ring
  have h0 : (0 : ℝ) * π / 180.0 * 0.5 = 0 := by ring
  have hq : EulerAngles.toQuaternion ⟨360, 0, 360⟩ = ⟨1, 0, 0, 0⟩ := by
    simp only [EulerAngles.toQuaternion]
    rw [h1, h0, Real.cos_pi, Real.sin_pi, Real.cos_zero, Real.sin_zero]
    norm_num
    exact mkQuaternion_of_normSq_one (by norm_num)
  rw [hq, toEuler_id]
  norm_num

/-! Unit-norm facts for each operation that funnels through the normalising
constructor. -/

theorem Quaternion.magnitude_ne_zero_iff (q : Quaternion) :
    q.magnitude ≠ 0 ↔ q.normSq ≠ 0 :=
  not_congr q.magnitude_eq_zero_iff

theorem normSq_conjugate_components (q : Quaternion) :
    q.w ^ 2 + (-q.x) ^ 2 + (-q.y) ^ 2 + (-q.z) ^ 2 = q.normSq := by
  unfold Quaternion.normSq; ring

theorem magnitude_conjugate (q : Quaternion) (h : q.normSq ≠ 0) :
    q.conjugate.magnitude = 1 := by
  unfold Quaternion.conjugate
  apply magnitude_mkQuaternion
  rw [normSq_conjugate_components]
  exact h

theorem magnitude_productOf (q1 q2 : Quaternion) (h1 : q1.normSq ≠ 0)
    (h2 : q2.normSq ≠ 0) : (q1.productOf q2).magnitude = 1 := by
  unfold Quaternion.productOf
  apply magnitude_mkQuaternion
  have h := normSq_product_components q1 q2
  unfold Quaternion.normSq at h
  rw [h]
  exact mul_ne_zero (by unfold Quaternion.normSq at h1; exact h1)
    (by unfold Quaternion.normSq at h2; exact h2)

theorem magnitude_difference (q1 q2 : Quaternion) (h1 : q1.normSq ≠ 0)
    (h2 : q2.normSq ≠ 0) : (q1.difference q2).magnitude = 1 := by
  unfold Quaternion.difference
  apply magnitude_productOf
  · exact h2
  · have h := (Quaternion.magnitude_eq_one_iff _).mp (magnitude_conjugate q1 h1)
    rw [h]
    norm_num

theorem magnitude_toQuaternion (e : EulerAngles) : e.toQuaternion.magnitude = 1 := by
  simp only [EulerAngles.toQuaternion]
  apply magnitude_mkQuaternion
  rw [euler_normSq]
  norm_num

/-- C2: every quaternion produced by construction from explicit components,
by `conjugate`, `productOf`, `difference`, or `EulerAngles.toQuaternion`, and
any quaternion after `normalise`, has magnitude exactly 1 — except when the
supplied components have magnitude exactly zero. -/
theorem C2_unit_norm_invariant :
    (∀ w x y z : ℝ, Quaternion.magnitude ⟨w, x, y, z⟩ ≠ 0 →
        (mkQuaternion w x y z).magnitude = 1) ∧
    (∀ q : Quaternion, q.magnitude ≠ 0 → q.conjugate.magnitude = 1) ∧
    (∀ q1 q2 : Quaternion, q1.magnitude ≠ 0 → q2.magnitude ≠ 0 →
        (q1.productOf q2).magnitude = 1) ∧
    (∀ q1 q2 : Quaternion, q1.magnitude ≠ 0 → q2.magnitude ≠ 0 →
        (q1.difference q2).magnitude = 1) ∧
    (∀ e : EulerAngles, e.toQuaternion.magnitude = 1) ∧
    (∀ q : Quaternion, q.magnitude ≠ 0 → q.normalise.magnitude = 1) := by
  refine ⟨?_, ?_, ?_, ?_, ?_, ?_⟩
  · intro w x y z h
    exact magnitude_mkQuaternion ((Quaternion.magnitude_ne_zero_iff _).mp h)
  · intro q h
    exact magnitude_conjugate q ((Quaternion.magnitude_ne_zero_iff q).mp h)
  · intro q1 q2 h1 h2
    exact magnitude_productOf q1 q2 ((Quaternion.magnitude_ne_zero_iff q1).mp h1)
      ((Quaternion.magnitude_ne_zero_iff q2).mp h2)
  · intro q1 q2 h1 h2
    exact magnitude_difference q1 q2 ((Quaternion.magnitude_ne_zero_iff q1).mp h1)
      ((Quaternion.magnitude_ne_zero_iff q2).mp h2)
  · exact magnitude_toQuaternion
  · intro q h
    exact Quaternion.magnitude_normalise q ((Quaternion.magnitude_ne_zero_iff q).mp h)

/-- Witness for C2 at the concrete components (3, 4, 0, 0). -/
theorem C2_unit_norm_witness : (mkQuaternion 3 4 0 0).magnitude = 1 :=
  C2_unit_norm_invariant.1 3 4 0 0 (by
    rw [Quaternion.magnitude_ne_zero_iff]
    unfold Quaternion.normSq
    norm_num)

/-- C3: constructing the all-zero quaternion, or normalising a quaternion of
magnitude exactly zero, does not fail and leaves all four components
unchanged (Python raises and catches `ZeroDivisionError` before any component
is assigned, so no component is partially rescaled). -/
theorem C3_zero_magnitude_no_op :
    mkQuaternion 0 0 0 0 = ⟨0, 0, 0, 0⟩ ∧
    ∀ q : Quaternion, q.magnitude = 0 → q.normalise = q := by
  refine ⟨mkQuaternion_zero, ?_⟩
  intro q h
  unfold Quaternion.normalise
  rw [if_pos h]

/-- Witness for C3 at the all-zero quaternion. -/
theorem C3_zero_magnitude_witness :
    Quaternion.normalise ⟨0, 0, 0, 0⟩ = ⟨0, 0, 0, 0⟩ :=
  C3_zero_magnitude_no_op.2 ⟨0, 0, 0, 0⟩ (by
    rw [Quaternion.magnitude_eq_zero_iff]
    unfold Quaternion.normSq
    norm_num)

/-- C7: on unit quaternions, `productOf` returns exactly the Hamilton product
with the standard bilinear components (the renormalisation inside the
constructor divides by 1 and is the identity). -/
theorem C7_product_is_hamilton (q1 q2 : Quaternion)
    (h1 : q1.magnitude = 1) (h2 : q2.magnitude = 1) :
    q1.productOf q2 =
      ⟨q1.w * q2.w - q1.x * q2.x - q1.y * q2.y - q1.z * q2.z,
       q1.w * q2.x + q1.x * q2.w + q1.y * q2.z - q1.z * q2.y,
       q1.w * q2.y - q1.x * q2.z + q1.y * q2.w + q1.z * q2.x,
       q1.w * q2.z + q1.x * q2.y - q1.y * q2.x + q1.z * q2.w⟩ := by
  have h1' := (Quaternion.magnitude_eq_one_iff q1).mp h1
  have h2' := (Quaternion.magnitude_eq_one_iff q2).mp h2
  unfold Quaternion.productOf
  apply mkQuaternion_of_normSq_one
  have h := normSq_product_components q1 q2
  unfold Quaternion.normSq at h h1' h2'
  rw [h, h1', h2']
  norm_num

/-- Witness for C7 at two concrete unit quaternions. -/
theorem C7_product_witness :
    Quaternion.productOf ⟨3/5, 4/5, 0, 0⟩ ⟨3/5, 0, 4/5, 0⟩ =
      ⟨3/5 * (3/5) - 4/5 * 0 - 0 * (4/5) - 0 * 0,
       3/5 * 0 + 4/5 * (3/5) + 0 * 0 - 0 * (4/5),
       3/5 * (4/5) - 4/5 * 0 + 0 * (3/5) + 0 * 0,
       3/5 * 0 + 4/5 * (4/5) - 0 * 0 + 0 * (3/5)⟩ :=
  C7_product_is_hamilton ⟨3/5, 4/5, 0, 0⟩ ⟨3/5, 0, 4/5, 0⟩
    (by
      rw [Quaternion.magnitude_eq_one_iff]
      unfold Quaternion.normSq
      norm_num)
    (by
      rw [Quaternion.magnitude_eq_one_iff]
      unfold Quaternion.normSq
      norm_num)

/-- C8: for a unit quaternion, the rotational difference with itself is the
identity quaternion (w, x, y, z) = (1, 0, 0, 0). -/
theorem C8_difference_self_identity (q : Quaternion) (h : q.magnitude = 1) :
    q.difference q = ⟨1, 0, 0, 0⟩ :=
  Quaternion.difference_self_of_normSq_one ((Quaternion.magnitude_eq_one_iff q).mp h)

/-- Witness for C8 at a concrete unit quaternion. -/
theorem C8_difference_self_witness :
    Quaternion.difference ⟨3/5, 0, 0, 4/5⟩ ⟨3/5, 0, 0, 4/5⟩ = ⟨1, 0, 0, 0⟩ :=
  C8_difference_self_identity ⟨3/5, 0, 0, 4/5⟩ (by
    rw [Quaternion.magnitude_eq_one_iff]
    unfold Quaternion.normSq
    norm_num)

/-- C9: the asin guard returns exactly π/2 (90° once converted to degrees)
for every input at least 1, and exactly −π/2 (−90°) for every input at most
−1. -/
theorem C9_asin_guard :
    (∀ v : ℝ, 1 ≤ v → wrap_asin v = π / 2 ∧ wrap_asin v / π * 180 = 90) ∧
    (∀ v : ℝ, v ≤ -1 → wrap_asin v = -(π / 2) ∧ wrap_asin v / π * 180 = -90) := by
  have hπ : (π : ℝ) ≠ 0 := Real.pi_ne_zero
  constructor
  · intro v hv
    have h : wrap_asin v = π / 2 := by
      unfold wrap_asin
      rw [if_pos (show v ≥ 1 from hv)]
    refine ⟨h, ?_⟩
    rw [h]
    field_simp
    ring
  · intro v hv
    have h : wrap_asin v = -(π / 2) := by
      unfold wrap_asin
      rw [if_neg (show ¬ (v ≥ 1) by linarith), if_pos hv]
    refine ⟨h, ?_⟩
    rw [h]
    field_simp
    ring

/-- Witness for C9: clamped input 1.0000001 yields exactly 90° and
−1.0000001 yields exactly −90°. -/
theorem C9_asin_guard_witness :
    wrap_asin 1.0000001 = π / 2 ∧ wrap_asin 1.0000001 / π * 180 = 90 ∧
    wrap_asin (-1.0000001) = -(π / 2) ∧ wrap_asin (-1.0000001) / π * 180 = -90 := by
  obtain ⟨h1, h2⟩ := C9_asin_guard.1 1.0000001 (by norm_num)
  obtain ⟨h3, h4⟩ := C9_asin_guard.2 (-1.0000001) (by norm_num)
  exact ⟨h1, h2, h3, h4⟩

/-- Witness for C4 at the concrete triple (90°, 45°, −90°), inside all the
required ranges. -/
theorem C4_round_trip_witness :
    ((-180 : ℝ) < 90 ∧ (90 : ℝ) ≤ 180 ∧ (-90 : ℝ) < 45 ∧ (45 : ℝ) < 90 ∧
      (-180 : ℝ) < -90 ∧ (-90 : ℝ) ≤ 180) ∧
    (EulerAngles.toQuaternion ⟨90, 45, -90⟩).toEuler = ⟨90, 45, -90⟩ :=
  ⟨by norm_num,
   C4_euler_round_trip 90 45 (-90) (by norm_num) (by norm_num) (by norm_num)
     (by norm_num) (by norm_num) (by norm_num)⟩

/-! Tracker lemmas. -/

/-- When `update` runs with a clock reading equal to the stored timestamp
(`dt = 0`), the per-axis velocity division raises: the result is the error
state in which timestamp, attitude components and target have already been
overwritten while `degSecYPR` and `error` keep their previous values. -/
theorem update_dt_zero (s : Kinematics) (att tgt : Quaternion) :
    s.update s.time att tgt =
      Except.error
        { s with w := att.w, x := att.x, y := att.y, z := att.z, target := tgt } := by
  simp only [Kinematics.update, sub_self, if_true]

/-- The incremental rotation of an unchanged attitude converts to the zero
Euler triple, both for a unit attitude and for the degenerate all-zero
attitude. -/
theorem difference_self_toEuler (q : Quaternion)
    (h : q.normSq = 1 ∨ q = ⟨0, 0, 0, 0⟩) :
    (q.difference q).toEuler = ⟨0, 0, 0⟩ := by
  rcases h with h | h
  · rw [Quaternion.difference_self_of_normSq_one h, toEuler_id]
  · rw [h, Quaternion.difference_self_zero, toEuler_zero]

/-- Evaluation of a freshly constructed identity tracker at clock 0. -/
theorem init_eval :
    Kinematics.init 1 0 0 0 0 =
      ⟨1, 0, 0, 0, ⟨1, 0, 0, 0⟩, 0, (0.0, 0.0, 0.0), ⟨1, 0, 0, 0⟩⟩ := by
  simp only [Kinematics.init]
  rw [mkQuaternion_of_normSq_one (by norm_num : (1:ℝ)^2 + 0^2 + 0^2 + 0^2 = 1)]
  rw [Quaternion.difference_self_of_normSq_one
    (by unfold Quaternion.normSq; norm_num)]

/-- C10: calling `update` with the clock equal to the stored timestamp
(`dt = 0`) raises `ZeroDivisionError` (modelled as `Except.error`) only after
the timestamp, the current-attitude components and the target have been
overwritten; the cached angular velocity and error quaternion stay stale
from the previous update, so the tracker state is not a single consistent
update. -/
theorem C10_update_not_atomic (s : Kinematics) (att tgt : Quaternion) :
    s.update s.time att tgt =
      Except.error
        { s with w := att.w, x := att.x, y := att.y, z := att.z, target := tgt } ∧
    (stateOf (s.update s.time att tgt)).getAngularVelocities = s.degSecYPR ∧
    (stateOf (s.update s.time att tgt)).getErrorQuaternion = s.error := by
  refine ⟨update_dt_zero s att tgt, ?_, ?_⟩ <;> rw [update_dt_zero s att tgt] <;> rfl

/-- C1 (corrected): at `dt = 0` the update does not complete normally with
non-finite velocities — the division raises `ZeroDivisionError`, the caller
sees the exception, and `getAngularVelocities` still returns the previous
cached values. -/
theorem C1_zero_dt_raises (s : Kinematics) (att tgt : Quaternion) :
    succeeded (s.update s.time att tgt) = false ∧
    (stateOf (s.update s.time att tgt)).getAngularVelocities =
      s.getAngularVelocities := by
  rw [update_dt_zero s att tgt]
  exact ⟨rfl, rfl⟩

/-- C1 (counterexample): a concrete `update` call in the same clock tick as
construction does not complete without signalling an error, contradicting
the claim that it completes and yields non-finite velocities. -/
theorem C1_counterexample :
    succeeded
      (Kinematics.update (Kinematics.init 1 0 0 0 0) 0 ⟨1, 0, 0, 0⟩ ⟨1, 0, 0, 0⟩) =
      false := by
  have ht : (Kinematics.init 1 0 0 0 0).time = 0 := by rw [init_eval]
  have h := update_dt_zero (Kinematics.init 1 0 0 0 0) ⟨1, 0, 0, 0⟩ ⟨1, 0, 0, 0⟩
  rw [ht] at h
  rw [h]
  rfl

/-- C6: `rotateTarget(q)` replaces the target with
`old_target.productOf(q)` — the relative rotation composed as a
post-multiplication onto the existing target — on both the normal path and
the `dt = 0` exception path (the target is assigned before the division). -/
theorem C6_rotate_target_composition (s : Kinematics) (now : ℝ) (q : Quaternion) :
    (stateOf (s.rotateTarget now q)).target = s.target.productOf q := by
  simp only [Kinematics.rotateTarget, Kinematics.update]
  split_ifs <;> rfl

/-- C5: with a positive elapsed time since the last update, `setTarget(q)`
leaves the current-attitude components unchanged, sets the target to `q`,
and the resulting cached angular velocity is `(0, 0, 0)` — a retarget, not a
motion of the body.  The hypothesis `hinv` is the tracker-state invariant:
the current attitude came through the normalising constructor, so it is
either unit-norm or the tolerated all-zero quaternion. -/
theorem C5_set_target (s : Kinematics) (now : ℝ) (q : Quaternion)
    (hdt : s.time < now)
    (hinv : Quaternion.normSq ⟨s.w, s.x, s.y, s.z⟩ = 1 ∨
      (⟨s.w, s.x, s.y, s.z⟩ : Quaternion) = ⟨0, 0, 0, 0⟩) :
    s.setTarget now q =
      Except.ok
        { s with
          time := now
          target := q
          degSecYPR := (0, 0, 0)
          error := Quaternion.difference ⟨s.w, s.x, s.y, s.z⟩ q } := by
  have hne : now - s.time ≠ 0 := sub_ne_zero.mpr hdt.ne'
  have hdelta :
      ((mkQuaternion s.w s.x s.y s.z).difference ⟨s.w, s.x, s.y, s.z⟩).toEuler =
        ⟨0, 0, 0⟩ := by
    rcases hinv with h | h
    · rw [mkQuaternion_of_normSq_one h]
      exact difference_self_toEuler _ (Or.inl h)
    · have hw : s.w = 0 := congrArg Quaternion.w h
      have hx : s.x = 0 := congrArg Quaternion.x h
      have hy : s.y = 0 := congrArg Quaternion.y h
      have hz : s.z = 0 := congrArg Quaternion.z h
      rw [hw, hx, hy, hz, mkQuaternion_zero, Quaternion.difference_self_zero,
        toEuler_zero]
  simp only [Kinematics.setTarget, Kinematics.update, Kinematics.quat]
  rw [if_neg hne, hdelta]
  simp [zero_div]

/-- Witness for C5: retargeting a freshly built identity tracker one second
later keeps the attitude, installs the new target and reports zero angular
velocity. -/
theorem C5_set_target_witness :
    Kinematics.setTarget (Kinematics.init 1 0 0 0 0) 1 ⟨0, 1, 0, 0⟩ =
      Except.ok
        { Kinematics.init 1 0 0 0 0 with
          time := 1
          target := ⟨0, 1, 0, 0⟩
          degSecYPR := (0, 0, 0)
          error := Quaternion.difference
            ⟨(Kinematics.init 1 0 0 0 0).w, (Kinematics.init 1 0 0 0 0).x,
             (Kinematics.init 1 0 0 0 0).y, (Kinematics.init 1 0 0 0 0).z⟩
            ⟨0, 1, 0, 0⟩ } :=
  C5_set_target (Kinematics.init 1 0 0 0 0) 1 ⟨0, 1, 0, 0⟩
    (by rw [init_eval]; norm_num)
    (Or.inl (by rw [init_eval]; unfold Quaternion.normSq; norm_num))

end Kin
